import Mathlib

/-!
Shallow embedding of the ADL meta-engine save-game metadata code
(engines/adl/detection.cpp) together with the external collaborators it
touches, and proofs of the specification claims about it.

Modelling conventions:
- Strings from the C++ code are embedded as lists of characters
  (C strings are character arrays read left to right).
- A save file is a list of byte values. The save-file storage abstraction
  (SaveFileManager) is a finite-map-like function from filenames to
  optional file contents: openForLoading is lookup, removeSavefile erases
  the binding.
- An in-memory read stream (InSaveFile backed by the file contents) is a
  record of the underlying bytes, a read position and an end-of-stream
  flag. Reading past the end of the data yields zero bytes for the
  missing positions (the C++ readByte returns 0 there, and the name
  buffer it fills is zero-initialised) and raises the end-of-stream flag,
  exactly as a memory-backed read stream does. The err() flag of a
  memory-backed stream is never raised, so the eos-or-err checks of the
  code are embedded as checks of the end-of-stream flag.
- The thumbnail codec (Graphics loadThumbnail) is an external collaborator
  declared out of scope by the spec; it is embedded as a function
  parameter from the remaining stream to an optional decoded thumbnail,
  with a null result standing for a failed decode.
-/

namespace Adl

/-- Modelled from the spec: the expected save-format version constant
SAVEGAME_VERSION is defined in the engine header, outside this file; the
spec only requires the version byte to equal a fixed expected constant. -/
def SAVEGAME_VERSION : Nat := 0

/-- Modelled from the spec: the fixed name-field size constant
SAVEGAME_NAME_LEN is defined in the engine header, outside this file; the
spec only requires a fixed-length name field whose last byte is reserved. -/
def SAVEGAME_NAME_LEN : Nat := 32

/-- The 4-byte magic tag MKTAG of the characters A, D, L and colon,
packed big-endian: 0x41444C3A. -/
def ADL_TAG : Nat := 0x41444C3A

/-- An in-memory read stream over the bytes of one save file. -/
structure MemStream where
  data : List Nat
  pos : Nat
  eosFlag : Bool
deriving DecidableEq, Repr

/-- Read n bytes from the stream. Available bytes are returned in order;
missing bytes (when fewer than n remain) are returned as 0 and the
end-of-stream flag is raised. The position advances by the number of
bytes actually available, as in a memory-backed stream. -/
def readBytes (s : MemStream) (n : Nat) : List Nat × MemStream :=
  ((s.data.drop s.pos).take n
      ++ List.replicate (n - ((s.data.drop s.pos).take n).length) 0,
   { data := s.data,
     pos := s.pos + min n (s.data.length - s.pos),
     eosFlag := s.eosFlag || decide (s.data.length - s.pos < n) })

/-- Read one byte (0 past the end of the stream). -/
def readByte (s : MemStream) : Nat × MemStream :=
  ((readBytes s 1).1.getD 0 0, (readBytes s 1).2)

/-- Read a big-endian 16-bit unsigned value. -/
def readUint16BE (s : MemStream) : Nat × MemStream :=
  ((readBytes s 2).1.getD 0 0 * 256 + (readBytes s 2).1.getD 1 0,
   (readBytes s 2).2)

/-- Read a big-endian 32-bit unsigned value. -/
def readUint32BE (s : MemStream) : Nat × MemStream :=
  ((((readBytes s 4).1.getD 0 0 * 256 + (readBytes s 4).1.getD 1 0) * 256
      + (readBytes s 4).1.getD 2 0) * 256 + (readBytes s 4).1.getD 3 0,
   (readBytes s 4).2)

/-- Modelled from the spec: the SaveStateDescriptor value produced for the
caller (the host type lives outside this file). It carries a slot number,
a display name, optional save date (year, month, day), optional save time
(hour, minute), optional play time and an optional thumbnail; the spec
describes exactly these fields. The thumbnail payload itself is opaque. -/
structure SaveStateDescriptor where
  saveSlot : Int
  description : List Char
  saveDate : Option (Nat × Nat × Nat)
  saveTime : Option (Nat × Nat)
  playTime : Option Nat
  thumbnail : Option Unit
deriving DecidableEq, Repr

/-- The default-constructed (empty) SaveStateDescriptor: slot -1, empty
name, no date, time, play time or thumbnail. -/
def SaveStateDescriptor.empty : SaveStateDescriptor :=
  { saveSlot := -1, description := [], saveDate := none, saveTime := none,
    playTime := none, thumbnail := none }

/-- Modelled from the spec: the save-file storage abstraction, a map from
filenames to optional file contents (open-for-read is lookup). -/
def SaveFS : Type := List Char → Option (List Nat)

/-- Interpret a zero-padded fixed-width byte buffer as a C string: the
bytes before the first zero, as characters. -/
def cString (bs : List Nat) : List Char :=
  (bs.takeWhile (fun b => b != 0)).map Char.ofNat

/-- The characters the C library treats as whitespace (skipped by atoi). -/
def isSpaceChar (c : Char) : Bool :=
  c = ' ' || c = '\t' || c = '\n' || c = '\x0b' || c = '\x0c' || c = '\r'

/-- Numeric value of a decimal digit character. -/
def digitVal (c : Char) : Nat := c.toNat - 48

/-- Accumulate leading decimal digits, stopping at the first non-digit. -/
def atoiLoop : List Char → Nat → Nat
  | [], acc => acc
  | c :: cs, acc =>
      if c.isDigit then atoiLoop cs (acc * 10 + digitVal c) else acc

/-- The C library atoi: skip whitespace, read an optional sign, then
leading decimal digits; 0 when no digits are present. -/
def atoi (s : List Char) : Int :=
  match s.dropWhile isSpaceChar with
  | '-' :: cs => -(atoiLoop cs 0 : Int)
  | '+' :: cs => (atoiLoop cs 0 : Int)
  | cs => (atoiLoop cs 0 : Int)

/-- Render a natural number in decimal, zero-padded to width two, as the
printf format %02d does for the non-negative slot numbers used here. -/
def format02 (n : Nat) : List Char :=
  if n < 10 then ['0', Nat.digitChar n]
  else if n < 100 then [Nat.digitChar (n / 10), Nat.digitChar (n % 10)]
  else Nat.toDigits 10 n

/-- The save filename for a target and slot, format "%s.s%02d". -/
def saveFileName (target : List Char) (slot : Nat) : List Char :=
  target ++ ('.' :: 's' :: format02 slot)

/-- The last two characters of a filename (the pointer arithmetic
fileName plus size minus 2 used for slot extraction). -/
def lastTwo (s : List Char) : List Char := s.drop (s.length - 2)

/-- AdlMetaEngine getMaximumSaveSlot: the character-range constant
letter O minus letter A. -/
def getMaximumSaveSlot : Nat := 'O'.toNat - 'A'.toNat

/-- AdlMetaEngine querySaveMetaInfos: open the save file of the given
target and slot, validate the magic tag and version, read the name field
(discarding the trailing reserved byte), check for end of stream, read
the date, time and play-time fields, check again, then hand the rest of
the stream to the thumbnail decoder. Every failed check returns the
default-constructed descriptor. -/
def querySaveMetaInfos (fs : SaveFS) (loadThumbnail : MemStream → Option Unit)
    (target : List Char) (slot : Nat) : SaveStateDescriptor :=
  match fs (saveFileName target slot) with
  | none => SaveStateDescriptor.empty
  | some data =>
      let r1 := readUint32BE { data := data, pos := 0, eosFlag := false }
      if r1.1 ≠ ADL_TAG then SaveStateDescriptor.empty else
      let r2 := readByte r1.2
      if r2.1 ≠ SAVEGAME_VERSION then SaveStateDescriptor.empty else
      let r3 := readBytes r2.2 (SAVEGAME_NAME_LEN - 1)
      let r4 := readByte r3.2
      if r4.2.eosFlag then SaveStateDescriptor.empty else
      let sd0 : SaveStateDescriptor :=
        { saveSlot := (slot : Int), description := cString r3.1,
          saveDate := none, saveTime := none, playTime := none,
          thumbnail := none }
      let r5 := readUint16BE r4.2
      let r6 := readByte r5.2
      let r7 := readByte r6.2
      let sd1 := { sd0 with saveDate := some (r5.1 + 1900, r6.1 + 1, r7.1) }
      let r8 := readByte r7.2
      let r9 := readByte r8.2
      let sd2 := { sd1 with saveTime := some (r8.1, r9.1) }
      let r10 := readUint32BE r9.2
      let sd3 := { sd2 with playTime := some r10.1 }
      if r10.2.eosFlag then SaveStateDescriptor.empty else
      { sd3 with thumbnail := loadThumbnail r10.2 }

/-- The warnings the listing loop can log. Modelled from the spec: the
warning sink is host infrastructure outside this file, so warnings are
embedded as values returned alongside the listing. -/
inductive SaveWarning where
  | cannotOpen (fileName : List Char)
  | noHeader (fileName : List Char)
  | unsupportedVersion (version : Nat) (fileName : List Char)
deriving DecidableEq, Repr

/-- One iteration of the listing loop of AdlMetaEngine listSaves: open
the candidate file, validate magic tag and version (a warning on
mismatch), read the name field, derive the slot number from the last two
characters of the filename, and build the descriptor. -/
def listSavesStep (fs : SaveFS) (fileName : List Char) :
    SaveWarning ⊕ SaveStateDescriptor :=
  match fs fileName with
  | none => Sum.inl (SaveWarning.cannotOpen fileName)
  | some data =>
      let r1 := readUint32BE { data := data, pos := 0, eosFlag := false }
      if r1.1 ≠ ADL_TAG then Sum.inl (SaveWarning.noHeader fileName) else
      let r2 := readByte r1.2
      if r2.1 ≠ SAVEGAME_VERSION then
        Sum.inl (SaveWarning.unsupportedVersion r2.1 fileName) else
      let r3 := readBytes r2.2 (SAVEGAME_NAME_LEN - 1)
      let slotNum := atoi (lastTwo fileName)
      Sum.inr
        { saveSlot := slotNum, description := cString r3.1,
          saveDate := none, saveTime := none, playTime := none,
          thumbnail := none }

/-- Project the descriptor out of a loop-iteration result. -/
def sumDescr (r : SaveWarning ⊕ SaveStateDescriptor) :
    Option SaveStateDescriptor :=
  match r with
  | Sum.inl _ => none
  | Sum.inr d => some d

/-- Project the warning out of a loop-iteration result. -/
def sumWarn (r : SaveWarning ⊕ SaveStateDescriptor) : Option SaveWarning :=
  match r with
  | Sum.inl w => some w
  | Sum.inr _ => none

/-- The comparator SaveStateDescriptorSlotComparator orders descriptors
by slot number. -/
def slotLE (a b : SaveStateDescriptor) : Prop := a.saveSlot ≤ b.saveSlot

instance : DecidableRel slotLE :=
  fun a b => (inferInstance : Decidable (a.saveSlot ≤ b.saveSlot))

instance : IsTotal SaveStateDescriptor slotLE :=
  ⟨fun a b => Int.le_total a.saveSlot b.saveSlot⟩

instance : IsTrans SaveStateDescriptor slotLE :=
  ⟨fun _ _ _ h1 h2 => le_trans h1 h2⟩

/-- Modelled from the spec: the host sorting routine Common sort lives
outside this file; it sorts the collected descriptors by the slot
comparator, embedded here as insertion sort under slotLE. -/
def sortBySlot (l : List SaveStateDescriptor) : List SaveStateDescriptor :=
  List.insertionSort slotLE l

/-- AdlMetaEngine listSaves: run the loop over the enumerated candidate
filenames, collect the descriptors of the accepted files, sort them by
slot number, and return them together with the warnings logged along the
way. The enumeration produced by the storage abstraction is passed in as
the list of candidate filenames. -/
def listSaves (fs : SaveFS) (files : List (List Char)) :
    List SaveStateDescriptor × List SaveWarning :=
  (sortBySlot ((files.map (listSavesStep fs)).filterMap sumDescr),
   (files.map (listSavesStep fs)).filterMap sumWarn)

/-- Modelled from the spec: the storage abstraction delete-by-name
operation removes the binding of the given filename; it reports no
failure to this component (the code ignores its result). -/
def removeSavefile (fs : SaveFS) (fileName : List Char) : SaveFS :=
  fun n => if n = fileName then none else fs n

/-- AdlMetaEngine removeSaveState: delete the save file of the given
target and slot. -/
def removeSaveState (fs : SaveFS) (target : List Char) (slot : Nat) :
    SaveFS :=
  removeSavefile fs (saveFileName target slot)

/-- The magic-tag value read from the start of a file. -/
def magicValue (data : List Nat) : Nat :=
  (readUint32BE { data := data, pos := 0, eosFlag := false }).1

/-- The version byte read right after the magic tag of a file. -/
def versionValue (data : List Nat) : Nat :=
  (readByte (readUint32BE { data := data, pos := 0, eosFlag := false }).2).1

end Adl

namespace Adl

/-- Reading exactly the next chunk of a decomposed byte list returns that
chunk and advances the position past it without raising end-of-stream. -/
theorem readBytes_spec (l1 l2 l3 : List Nat) (e : Bool) (n : Nat)
    (hn : l2.length = n) :
    readBytes ⟨l1 ++ (l2 ++ l3), l1.length, e⟩ n =
      (l2, ⟨l1 ++ (l2 ++ l3), l1.length + n, e⟩) := by
  subst hn
  unfold readBytes
  have h1 : (l1 ++ (l2 ++ l3)).drop l1.length = l2 ++ l3 :=
    List.drop_left _ _
  have h2 : (l2 ++ l3).take l2.length = l2 := List.take_left _ _
  have h3 : min l2.length ((l1 ++ (l2 ++ l3)).length - l1.length)
      = l2.length := by
    simp [List.length_append]
  have h4 : decide ((l1 ++ (l2 ++ l3)).length - l1.length < l2.length)
      = false := by
    simp [List.length_append]
  simp [h1, h2, h3, h4]

/-- Reading one byte at a single-byte chunk boundary. -/
theorem readByte_spec (l1 : List Nat) (b : Nat) (l3 : List Nat) (e : Bool) :
    readByte ⟨l1 ++ ([b] ++ l3), l1.length, e⟩ =
      (b, ⟨l1 ++ ([b] ++ l3), l1.length + 1, e⟩) := by
  have h := readBytes_spec l1 [b] l3 e 1 rfl
  simp only [List.singleton_append] at h ⊢
  simp [readByte, h]

/-- Reading a big-endian 16-bit value at a two-byte chunk boundary. -/
theorem readUint16BE_spec (l1 : List Nat) (b0 b1 : Nat) (l3 : List Nat)
    (e : Bool) :
    readUint16BE ⟨l1 ++ ([b0, b1] ++ l3), l1.length, e⟩ =
      (b0 * 256 + b1, ⟨l1 ++ ([b0, b1] ++ l3), l1.length + 2, e⟩) := by
  have h := readBytes_spec l1 [b0, b1] l3 e 2 rfl
  simp only [List.cons_append, List.nil_append] at h ⊢
  simp [readUint16BE, h]

/-- Reading a big-endian 32-bit value at a four-byte chunk boundary. -/
theorem readUint32BE_spec (l1 : List Nat) (b0 b1 b2 b3 : Nat)
    (l3 : List Nat) (e : Bool) :
    readUint32BE ⟨l1 ++ ([b0, b1, b2, b3] ++ l3), l1.length, e⟩ =
      (((b0 * 256 + b1) * 256 + b2) * 256 + b3,
       ⟨l1 ++ ([b0, b1, b2, b3] ++ l3), l1.length + 4, e⟩) := by
  have h := readBytes_spec l1 [b0, b1, b2, b3] l3 e 4 rfl
  simp only [List.cons_append, List.nil_append] at h ⊢
  simp [readUint32BE, h]

end Adl

namespace Adl

/-- Full successful evaluation of querySaveMetaInfos on a well-formed
save file: 4 magic bytes, the version byte, a 31-byte name field, the
discarded reserved byte, the big-endian date, time and play-time fields,
and the remaining thumbnail bytes. -/
theorem querySaveMetaInfos_eval (fs : SaveFS) (dec : MemStream → Option Unit)
    (target : List Char) (slot : Nat) (nm : List Nat)
    (sk y0 y1 mo dy hr mi p0 p1 p2 p3 : Nat) (rest : List Nat)
    (hnm : nm.length = 31)
    (hfs : fs (saveFileName target slot) =
      some (65 :: 68 :: 76 :: 58 :: SAVEGAME_VERSION ::
        (nm ++ sk :: y0 :: y1 :: mo :: dy :: hr :: mi ::
          p0 :: p1 :: p2 :: p3 :: rest))) :
    querySaveMetaInfos fs dec target slot =
      { saveSlot := (slot : Int), description := cString nm,
        saveDate := some (y0 * 256 + y1 + 1900, mo + 1, dy),
        saveTime := some (hr, mi),
        playTime := some (((p0 * 256 + p1) * 256 + p2) * 256 + p3),
        thumbnail := dec ⟨65 :: 68 :: 76 :: 58 :: SAVEGAME_VERSION ::
          (nm ++ sk :: y0 :: y1 :: mo :: dy :: hr :: mi ::
            p0 :: p1 :: p2 :: p3 :: rest), 47, false⟩ } := by
  have e1 := readUint32BE_spec [] 65 68 76 58
    (SAVEGAME_VERSION :: (nm ++ sk :: y0 :: y1 :: mo :: dy :: hr :: mi ::
      p0 :: p1 :: p2 :: p3 :: rest)) false
  have e2 := readByte_spec [65, 68, 76, 58] SAVEGAME_VERSION
    (nm ++ sk :: y0 :: y1 :: mo :: dy :: hr :: mi ::
      p0 :: p1 :: p2 :: p3 :: rest) false
  have e3 := readBytes_spec [65, 68, 76, 58, SAVEGAME_VERSION] nm
    (sk :: y0 :: y1 :: mo :: dy :: hr :: mi ::
      p0 :: p1 :: p2 :: p3 :: rest) false 31 hnm
  have e4 := readByte_spec ([65, 68, 76, 58, SAVEGAME_VERSION] ++ nm) sk
    (y0 :: y1 :: mo :: dy :: hr :: mi :: p0 :: p1 :: p2 :: p3 :: rest) false
  have e5 := readUint16BE_spec
    ([65, 68, 76, 58, SAVEGAME_VERSION] ++ nm ++ [sk]) y0 y1
    (mo :: dy :: hr :: mi :: p0 :: p1 :: p2 :: p3 :: rest) false
  have e6 := readByte_spec
    ([65, 68, 76, 58, SAVEGAME_VERSION] ++ nm ++ [sk, y0, y1]) mo
    (dy :: hr :: mi :: p0 :: p1 :: p2 :: p3 :: rest) false
  have e7 := readByte_spec
    ([65, 68, 76, 58, SAVEGAME_VERSION] ++ nm ++ [sk, y0, y1, mo]) dy
    (hr :: mi :: p0 :: p1 :: p2 :: p3 :: rest) false
  have e8 := readByte_spec
    ([65, 68, 76, 58, SAVEGAME_VERSION] ++ nm ++ [sk, y0, y1, mo, dy]) hr
    (mi :: p0 :: p1 :: p2 :: p3 :: rest) false
  have e9 := readByte_spec
    ([65, 68, 76, 58, SAVEGAME_VERSION] ++ nm ++ [sk, y0, y1, mo, dy, hr])
    mi (p0 :: p1 :: p2 :: p3 :: rest) false
  have e10 := readUint32BE_spec
    ([65, 68, 76, 58, SAVEGAME_VERSION] ++ nm ++ [sk, y0, y1, mo, dy, hr, mi])
    p0 p1 p2 p3 rest false
  simp only [List.cons_append, List.nil_append, List.append_assoc,
    List.singleton_append, List.length_cons, List.length_append,
    List.length_nil, hnm, SAVEGAME_VERSION, SAVEGAME_NAME_LEN,
    ADL_TAG] at e1 e2 e3 e4 e5 e6 e7 e8 e9 e10
  norm_num at e1 e2 e3 e4 e5 e6 e7 e8 e9 e10
  simp only [querySaveMetaInfos, hfs]
  simp [e1, e2, e3, e4, e5, e6, e7, e8, e9, e10, ADL_TAG,
    SAVEGAME_VERSION, SAVEGAME_NAME_LEN]

end Adl

namespace Adl

/-- The stream state after the magic, version, name-field and reserved
byte reads: position clamped to the data, end-of-stream exactly when the
file is shorter than the 37 bytes requested so far. -/
theorem stream4_eq (data : List Nat) :
    (readByte (readBytes (readByte
        (readUint32BE ⟨data, 0, false⟩).2).2 (SAVEGAME_NAME_LEN - 1)).2).2 =
      ⟨data, min 37 data.length, decide (data.length < 37)⟩ := by
  simp only [readUint32BE, readByte, readBytes, SAVEGAME_NAME_LEN,
    MemStream.mk.injEq]
  refine ⟨trivial, by omega, ?_⟩
  simp only [Bool.false_or, ← Bool.decide_or, decide_eq_decide]
  omega

/-- The stream state after additionally reading the date, time and
play-time fields: end-of-stream exactly when the file is shorter than
the 47 bytes requested in total. -/
theorem stream10_eq (data : List Nat) :
    (readUint32BE (readByte (readByte (readByte (readByte (readUint16BE
        (⟨data, min 37 data.length, decide (data.length < 37)⟩ :
          MemStream)).2).2).2).2).2).2 =
      ⟨data, min 47 data.length, decide (data.length < 47)⟩ := by
  simp only [readUint32BE, readByte, readUint16BE, readBytes,
    MemStream.mk.injEq]
  refine ⟨trivial, by omega, ?_⟩
  simp only [← Bool.decide_or, decide_eq_decide]
  omega

/-- A missing save file yields the default descriptor. -/
theorem query_empty_of_none (fs : SaveFS) (dec : MemStream → Option Unit)
    (target : List Char) (slot : Nat)
    (h : fs (saveFileName target slot) = none) :
    querySaveMetaInfos fs dec target slot = SaveStateDescriptor.empty := by
  simp [querySaveMetaInfos, h]

/-- A magic-tag mismatch yields the default descriptor. -/
theorem query_empty_of_badMagic (fs : SaveFS) (dec : MemStream → Option Unit)
    (target : List Char) (slot : Nat) (data : List Nat)
    (hfs : fs (saveFileName target slot) = some data)
    (hm : magicValue data ≠ ADL_TAG) :
    querySaveMetaInfos fs dec target slot = SaveStateDescriptor.empty := by
  simp only [magicValue] at hm
  simp only [querySaveMetaInfos, hfs]
  rw [if_pos hm]

/-- A version mismatch yields the default descriptor. -/
theorem query_empty_of_badVersion (fs : SaveFS)
    (dec : MemStream → Option Unit) (target : List Char) (slot : Nat)
    (data : List Nat) (hfs : fs (saveFileName target slot) = some data)
    (hv : versionValue data ≠ SAVEGAME_VERSION) :
    querySaveMetaInfos fs dec target slot = SaveStateDescriptor.empty := by
  simp only [versionValue] at hv
  simp only [querySaveMetaInfos, hfs]
  split <;> rfl

/-- A file too short to supply all the checked header reads (47 bytes)
yields the default descriptor: one of the two end-of-stream checks
fires. -/
theorem query_empty_of_short (fs : SaveFS) (dec : MemStream → Option Unit)
    (target : List Char) (slot : Nat) (data : List Nat)
    (hfs : fs (saveFileName target slot) = some data)
    (hlen : data.length < SAVEGAME_NAME_LEN + 15) :
    querySaveMetaInfos fs dec target slot = SaveStateDescriptor.empty := by
  simp only [SAVEGAME_NAME_LEN] at hlen
  simp only [querySaveMetaInfos, hfs]
  rw [stream4_eq, stream10_eq]
  split
  · rfl
  · split
    · rfl
    · split
      · rfl
      · split
        · rfl
        · rename_i h4 h10
          simp only [decide_eq_true_eq] at h4 h10
          omega

end Adl

namespace Adl

/-- Sorting by slot does not change membership. -/
theorem mem_sortBySlot {d : SaveStateDescriptor}
    {l : List SaveStateDescriptor} : d ∈ sortBySlot l ↔ d ∈ l := by
  simp [sortBySlot]

/-- A candidate file that passes the magic and version checks is turned
into a descriptor whose slot comes from the last two filename characters
and whose name is the (possibly zero-padded) name field. -/
theorem listSavesStep_accepts (fs : SaveFS) (f : List Char)
    (data : List Nat) (hfs : fs f = some data)
    (hm : magicValue data = ADL_TAG)
    (hv : versionValue data = SAVEGAME_VERSION) :
    listSavesStep fs f = Sum.inr
      { saveSlot := atoi (lastTwo f),
        description := cString (readBytes
          (readByte (readUint32BE ⟨data, 0, false⟩).2).2
          (SAVEGAME_NAME_LEN - 1)).1,
        saveDate := none, saveTime := none, playTime := none,
        thumbnail := none } := by
  simp only [magicValue] at hm
  simp only [versionValue] at hv
  simp [listSavesStep, hfs, hm, hv]

/-- A candidate file with a wrong magic tag is skipped with a no-header
warning. -/
theorem listSavesStep_badMagic (fs : SaveFS) (f : List Char)
    (data : List Nat) (hfs : fs f = some data)
    (hm : magicValue data ≠ ADL_TAG) :
    listSavesStep fs f = Sum.inl (SaveWarning.noHeader f) := by
  simp only [magicValue] at hm
  simp only [listSavesStep, hfs]
  rw [if_pos hm]

/-- A candidate file with a good magic tag but wrong version byte is
skipped with an unsupported-version warning. -/
theorem listSavesStep_badVersion (fs : SaveFS) (f : List Char)
    (data : List Nat) (hfs : fs f = some data)
    (hm : magicValue data = ADL_TAG)
    (hv : versionValue data ≠ SAVEGAME_VERSION) :
    listSavesStep fs f =
      Sum.inl (SaveWarning.unsupportedVersion (versionValue data) f) := by
  simp only [magicValue] at hm
  simp only [versionValue] at hv ⊢
  simp only [listSavesStep, hfs]
  rw [if_neg (fun hh => hh hm), if_pos hv]

/-- A candidate file that cannot be opened is skipped with a
cannot-open warning. -/
theorem listSavesStep_cannotOpen (fs : SaveFS) (f : List Char)
    (hfs : fs f = none) :
    listSavesStep fs f = Sum.inl (SaveWarning.cannotOpen f) := by
  simp [listSavesStep, hfs]

/-- Dropping all but the last two characters of a string that ends in a
given two-character suffix returns that suffix. -/
theorem lastTwo_append (l1 l2 : List Char) (h : l2.length = 2) :
    lastTwo (l1 ++ l2) = l2 := by
  unfold lastTwo
  have hlen : (l1 ++ l2).length - 2 = l1.length := by
    simp [List.length_append, h]
  rw [hlen, List.drop_left]

/-- For slots below 100 the zero-padded rendering has exactly two
characters. -/
theorem format02_length (n : Nat) (h : n < 100) :
    (format02 n).length = 2 := by
  unfold format02
  rcases Nat.lt_or_ge n 10 with h10 | h10
  · rw [if_pos h10]
    rfl
  · rw [if_neg (by omega), if_pos h]
    rfl

/-- Parsing the zero-padded two-digit rendering of a slot below 100
recovers the slot. -/
theorem atoi_format02 (n : Nat) (h : n < 100) :
    atoi (format02 n) = (n : Int) := by
  revert h
  revert n
  decide

end Adl

namespace Adl

/-- Claim C1: for every target string and slot index, querySaveMetaInfos
returns the empty default descriptor whenever the save file does not
exist, the 4-byte magic tag is not the ADL tag, the version byte differs
from the expected constant, or the file is too short to supply every
checked parse step (end-of-stream detected at a checked step); a
non-empty descriptor is returned only when all these checks pass. -/
theorem C1_query_fails_gracefully (fs : SaveFS)
    (dec : MemStream → Option Unit) (target : List Char) (slot : Nat) :
    (fs (saveFileName target slot) = none →
      querySaveMetaInfos fs dec target slot = SaveStateDescriptor.empty) ∧
    (∀ data, fs (saveFileName target slot) = some data →
      magicValue data ≠ ADL_TAG →
      querySaveMetaInfos fs dec target slot = SaveStateDescriptor.empty) ∧
    (∀ data, fs (saveFileName target slot) = some data →
      versionValue data ≠ SAVEGAME_VERSION →
      querySaveMetaInfos fs dec target slot = SaveStateDescriptor.empty) ∧
    (∀ data, fs (saveFileName target slot) = some data →
      data.length < SAVEGAME_NAME_LEN + 15 →
      querySaveMetaInfos fs dec target slot = SaveStateDescriptor.empty) ∧
    (querySaveMetaInfos fs dec target slot ≠ SaveStateDescriptor.empty →
      ∃ data, fs (saveFileName target slot) = some data ∧
        magicValue data = ADL_TAG ∧
        versionValue data = SAVEGAME_VERSION ∧
        SAVEGAME_NAME_LEN + 15 ≤ data.length) := by
  refine ⟨query_empty_of_none fs dec target slot,
    fun data hfs hm => query_empty_of_badMagic fs dec target slot data hfs hm,
    fun data hfs hv =>
      query_empty_of_badVersion fs dec target slot data hfs hv,
    fun data hfs hl => query_empty_of_short fs dec target slot data hfs hl,
    ?_⟩
  intro hne
  cases hd : fs (saveFileName target slot) with
  | none => exact absurd (query_empty_of_none fs dec target slot hd) hne
  | some data =>
      refine ⟨data, rfl, ?_, ?_, ?_⟩
      · by_contra hm
        exact hne (query_empty_of_badMagic fs dec target slot data hd hm)
      · by_contra hv
        exact hne (query_empty_of_badVersion fs dec target slot data hd hv)
      · by_contra hl
        exact hne
          (query_empty_of_short fs dec target slot data hd (by omega))

/-- Witness for C1: concrete failing inputs for each failure mode, all
yielding the empty descriptor. -/
theorem C1_witness :
    querySaveMetaInfos (fun _ => none) (fun _ => none) ['g'] 0 =
      SaveStateDescriptor.empty ∧
    querySaveMetaInfos (fun _ => some [0, 0, 0, 0]) (fun _ => none) ['g'] 0 =
      SaveStateDescriptor.empty ∧
    querySaveMetaInfos (fun _ => some [65, 68, 76, 58, 9]) (fun _ => none)
      ['g'] 1 = SaveStateDescriptor.empty ∧
    querySaveMetaInfos (fun _ => some [65, 68, 76, 58, 0]) (fun _ => none)
      ['g'] 2 = SaveStateDescriptor.empty :=
  ⟨(C1_query_fails_gracefully (fun _ => none) (fun _ => none) ['g'] 0).1 rfl,
   (C1_query_fails_gracefully (fun _ => some [0, 0, 0, 0]) (fun _ => none)
      ['g'] 0).2.1 [0, 0, 0, 0] rfl (by decide),
   (C1_query_fails_gracefully (fun _ => some [65, 68, 76, 58, 9])
      (fun _ => none) ['g'] 1).2.2.1 [65, 68, 76, 58, 9] rfl (by decide),
   (C1_query_fails_gracefully (fun _ => some [65, 68, 76, 58, 0])
      (fun _ => none) ['g'] 2).2.2.2.1 [65, 68, 76, 58, 0] rfl (by decide)⟩

/-- Claim C2: for every save file with valid magic and version whose
header fields are fully readable, the descriptor carries the save date
as raw year plus 1900, raw month plus 1 and raw day, the save time and
play time exactly as the raw big-endian header values, and the name is
the fixed-width name field with the trailing reserved byte discarded. -/
theorem C2_header_fields_roundtrip (fs : SaveFS)
    (dec : MemStream → Option Unit) (target : List Char) (slot : Nat)
    (nm : List Nat) (sk y0 y1 mo dy hr mi p0 p1 p2 p3 : Nat)
    (rest : List Nat) (hnm : nm.length = SAVEGAME_NAME_LEN - 1)
    (hfs : fs (saveFileName target slot) =
      some (65 :: 68 :: 76 :: 58 :: SAVEGAME_VERSION ::
        (nm ++ sk :: y0 :: y1 :: mo :: dy :: hr :: mi ::
          p0 :: p1 :: p2 :: p3 :: rest))) :
    (querySaveMetaInfos fs dec target slot).saveDate =
      some (y0 * 256 + y1 + 1900, mo + 1, dy) ∧
    (querySaveMetaInfos fs dec target slot).saveTime = some (hr, mi) ∧
    (querySaveMetaInfos fs dec target slot).playTime =
      some (((p0 * 256 + p1) * 256 + p2) * 256 + p3) ∧
    (querySaveMetaInfos fs dec target slot).description = cString nm ∧
    (querySaveMetaInfos fs dec target slot).saveSlot = (slot : Int) := by
  have h := querySaveMetaInfos_eval fs dec target slot nm sk y0 y1 mo dy
    hr mi p0 p1 p2 p3 rest (by simpa [SAVEGAME_NAME_LEN] using hnm) hfs
  rw [h]
  exact ⟨rfl, rfl, rfl, rfl, rfl⟩

/-- Witness for C2: a concrete valid save file whose parsed fields are
the raw header values after the offset corrections. -/
theorem C2_witness :
    (querySaveMetaInfos
      (fun n => if n = saveFileName ['g'] 3 then
        some (65 :: 68 :: 76 :: 58 :: SAVEGAME_VERSION ::
          (List.replicate 31 65 ++ 0 :: 0 :: 120 :: 5 :: 9 :: 10 :: 30 ::
            0 :: 0 :: 1 :: 0 :: [])) else none)
      (fun _ => none) ['g'] 3).saveDate = some (2020, 6, 9) ∧
    (querySaveMetaInfos
      (fun n => if n = saveFileName ['g'] 3 then
        some (65 :: 68 :: 76 :: 58 :: SAVEGAME_VERSION ::
          (List.replicate 31 65 ++ 0 :: 0 :: 120 :: 5 :: 9 :: 10 :: 30 ::
            0 :: 0 :: 1 :: 0 :: [])) else none)
      (fun _ => none) ['g'] 3).playTime = some 256 := by
  have h := C2_header_fields_roundtrip
    (fun n => if n = saveFileName ['g'] 3 then
      some (65 :: 68 :: 76 :: 58 :: SAVEGAME_VERSION ::
        (List.replicate 31 65 ++ 0 :: 0 :: 120 :: 5 :: 9 :: 10 :: 30 ::
          0 :: 0 :: 1 :: 0 :: [])) else none)
    (fun _ => none) ['g'] 3 (List.replicate 31 65) 0 0 120 5 9 10 30
    0 0 1 0 [] (by decide) (by simp)
  refine ⟨?_, ?_⟩
  · rw [h.1]
  · rw [h.2.2.1]

/-- Claim C4: for every save file whose header parses through the
play-time field, a thumbnail decoder returning null never makes
querySaveMetaInfos fail: the descriptor is still returned with name,
date, time and play time populated and the thumbnail set to null. -/
theorem C4_thumbnail_failure_degrades (fs : SaveFS)
    (dec : MemStream → Option Unit) (target : List Char) (slot : Nat)
    (nm : List Nat) (sk y0 y1 mo dy hr mi p0 p1 p2 p3 : Nat)
    (rest : List Nat) (hnm : nm.length = SAVEGAME_NAME_LEN - 1)
    (hfs : fs (saveFileName target slot) =
      some (65 :: 68 :: 76 :: 58 :: SAVEGAME_VERSION ::
        (nm ++ sk :: y0 :: y1 :: mo :: dy :: hr :: mi ::
          p0 :: p1 :: p2 :: p3 :: rest)))
    (hdec : dec ⟨65 :: 68 :: 76 :: 58 :: SAVEGAME_VERSION ::
      (nm ++ sk :: y0 :: y1 :: mo :: dy :: hr :: mi ::
        p0 :: p1 :: p2 :: p3 :: rest), 47, false⟩ = none) :
    querySaveMetaInfos fs dec target slot =
      { saveSlot := (slot : Int), description := cString nm,
        saveDate := some (y0 * 256 + y1 + 1900, mo + 1, dy),
        saveTime := some (hr, mi),
        playTime := some (((p0 * 256 + p1) * 256 + p2) * 256 + p3),
        thumbnail := none } := by
  have h := querySaveMetaInfos_eval fs dec target slot nm sk y0 y1 mo dy
    hr mi p0 p1 p2 p3 rest (by simpa [SAVEGAME_NAME_LEN] using hnm) hfs
  rw [h, hdec]

/-- Witness for C4: the concrete valid save file of the C2 witness with
a failing thumbnail decoder still yields the full descriptor, with the
thumbnail unset. -/
theorem C4_witness :
    querySaveMetaInfos
      (fun n => if n = saveFileName ['g'] 3 then
        some (65 :: 68 :: 76 :: 58 :: SAVEGAME_VERSION ::
          (List.replicate 31 65 ++ 0 :: 0 :: 120 :: 5 :: 9 :: 10 :: 30 ::
            0 :: 0 :: 1 :: 0 :: [])) else none)
      (fun _ => none) ['g'] 3 =
      { saveSlot := 3, description := cString (List.replicate 31 65),
        saveDate := some (0 * 256 + 120 + 1900, 5 + 1, 9),
        saveTime := some (10, 30),
        playTime := some (((0 * 256 + 0) * 256 + 1) * 256 + 0),
        thumbnail := none } :=
  C4_thumbnail_failure_degrades
    (fun n => if n = saveFileName ['g'] 3 then
      some (65 :: 68 :: 76 :: 58 :: SAVEGAME_VERSION ::
        (List.replicate 31 65 ++ 0 :: 0 :: 120 :: 5 :: 9 :: 10 :: 30 ::
          0 :: 0 :: 1 :: 0 :: [])) else none)
    (fun _ => none) ['g'] 3 (List.replicate 31 65) 0 0 120 5 9 10 30
    0 0 1 0 [] (by decide) (by simp) rfl

end Adl

namespace Adl

/-- Any descriptor produced by the listing loop takes its slot number
from the last two characters of the filename it came from. -/
theorem listSavesStep_inr_slot (fs : SaveFS) (f : List Char)
    (d : SaveStateDescriptor) (h : listSavesStep fs f = Sum.inr d) :
    d.saveSlot = atoi (lastTwo f) := by
  cases hfs : fs f with
  | none =>
      rw [listSavesStep_cannotOpen fs f hfs] at h
      simp at h
  | some data =>
      by_cases hm : magicValue data = ADL_TAG
      · by_cases hv : versionValue data = SAVEGAME_VERSION
        · rw [listSavesStep_accepts fs f data hfs hm hv] at h
          simp only [Sum.inr.injEq] at h
          rw [← h]
        · rw [listSavesStep_badVersion fs f data hfs hm hv] at h
          simp at h
      · rw [listSavesStep_badMagic fs f data hfs hm] at h
        simp at h

/-- Claim C3: for every target, the sequence returned by listSaves is
sorted in ascending order of slot number, regardless of the order in
which the save-file storage abstraction enumerates the matching
filenames. -/
theorem C3_listSaves_sorted (fs : SaveFS) (files : List (List Char)) :
    List.Sorted slotLE (listSaves fs files).1 := by
  simp only [listSaves]
  exact List.sorted_insertionSort slotLE _

/-- Claim C6: for every enumerated candidate file with a wrong magic tag
or a wrong version byte, listSaves logs a warning, skips that file and
continues with the remaining candidates; the mismatch never surfaces as
an error, and the file is excluded from the listing exactly as a missing
file is. -/
theorem C6_listSaves_skips_bad_header (fs : SaveFS) (f : List Char)
    (rest : List (List Char)) (data : List Nat) (hfs : fs f = some data)
    (hbad : magicValue data ≠ ADL_TAG ∨
      versionValue data ≠ SAVEGAME_VERSION) :
    (listSaves fs (f :: rest)).1 = (listSaves fs rest).1 ∧
    (∃ w, (listSaves fs (f :: rest)).2 = w :: (listSaves fs rest).2) ∧
    (∀ fs2 : SaveFS, fs2 f = none →
      (listSaves fs2 (f :: rest)).1 = (listSaves fs2 rest).1) := by
  have hstep : ∃ w, listSavesStep fs f = Sum.inl w := by
    by_cases hm : magicValue data = ADL_TAG
    · rcases hbad with hm2 | hv
      · exact absurd hm hm2
      · exact ⟨_, listSavesStep_badVersion fs f data hfs hm hv⟩
    · exact ⟨_, listSavesStep_badMagic fs f data hfs hm⟩
  obtain ⟨w, hw⟩ := hstep
  refine ⟨?_, ⟨w, ?_⟩, ?_⟩
  · simp [listSaves, hw, sumDescr]
  · simp [listSaves, hw, sumWarn]
  · intro fs2 h2
    simp [listSaves, listSavesStep_cannotOpen fs2 f h2, sumDescr]

/-- Witness for C6: a concrete candidate file with a wrong magic tag is
skipped with a warning and excluded like a missing file. -/
theorem C6_witness :
    (listSaves (fun _ => some [0, 0, 0, 0]) [['g', '.', 's', '0', '1']]).1 =
      (listSaves (fun _ => some [0, 0, 0, 0]) []).1 ∧
    (∃ w, (listSaves (fun _ => some [0, 0, 0, 0])
        [['g', '.', 's', '0', '1']]).2 =
      w :: (listSaves (fun _ => some [0, 0, 0, 0]) []).2) :=
  ⟨(C6_listSaves_skips_bad_header (fun _ => some [0, 0, 0, 0])
      ['g', '.', 's', '0', '1'] [] [0, 0, 0, 0] rfl
      (Or.inl (by decide))).1,
   (C6_listSaves_skips_bad_header (fun _ => some [0, 0, 0, 0])
      ['g', '.', 's', '0', '1'] [] [0, 0, 0, 0] rfl
      (Or.inl (by decide))).2.1⟩

/-- Claim C7: every descriptor in the listSaves result takes its slot
number from parsing the trailing two characters of the filename it came
from as a decimal integer; in particular the filename mygame.s07 yields
slot number 7. -/
theorem C7_slot_from_filename :
    (∀ (fs : SaveFS) (files : List (List Char)) (d : SaveStateDescriptor),
      d ∈ (listSaves fs files).1 →
      ∃ f ∈ files, d.saveSlot = atoi (lastTwo f)) ∧
    atoi (lastTwo ("mygame.s07".toList)) = 7 := by
  constructor
  · intro fs files d hd
    have hd2 : d ∈ (files.map (listSavesStep fs)).filterMap sumDescr := by
      have := mem_sortBySlot (d := d)
        (l := (files.map (listSavesStep fs)).filterMap sumDescr)
      simpa [listSaves] using (this.mp (by simpa [listSaves] using hd))
    rcases List.mem_filterMap.mp hd2 with ⟨r, hr, hrd⟩
    rcases List.mem_map.mp hr with ⟨f, hf, rfl⟩
    refine ⟨f, hf, ?_⟩
    cases h1 : listSavesStep fs f with
    | inl w => rw [h1] at hrd; simp [sumDescr] at hrd
    | inr d2 =>
        rw [h1] at hrd
        simp only [sumDescr, Option.some.injEq] at hrd
        subst hrd
        exact listSavesStep_inr_slot fs f d2 h1
  · decide

/-- Witness for C7: a concrete listing containing the file mygame.s07
whose descriptor carries slot number 7. -/
theorem C7_witness :
    ∃ f ∈ ["mygame.s07".toList],
      ({ saveSlot := 7, description := [], saveDate := none,
         saveTime := none, playTime := none,
         thumbnail := none } : SaveStateDescriptor).saveSlot =
        atoi (lastTwo f) :=
  C7_slot_from_filename.1 (fun _ => some [65, 68, 76, 58, 0])
    ["mygame.s07".toList]
    { saveSlot := 7, description := [], saveDate := none, saveTime := none,
      playTime := none, thumbnail := none } (by decide)

end Adl

namespace Adl

/-- Counterexample to claim C5: the claim asserts that a file with valid
magic tag and version whose name field cannot be fully read is excluded
from the listSaves result. At the concrete 5-byte file holding only the
magic tag and the version byte (so the 31-byte name read hits end of
stream), listSaves still lists the file, with slot 1 and an empty name,
while querySaveMetaInfos on the same file returns the empty
descriptor. -/
theorem C5_counterexample :
    (listSaves
      (fun n => if n = ['g', '.', 's', '0', '1'] then
        some [65, 68, 76, 58, 0] else none)
      [['g', '.', 's', '0', '1']]).1 =
      [{ saveSlot := 1, description := [], saveDate := none,
         saveTime := none, playTime := none, thumbnail := none }] ∧
    querySaveMetaInfos
      (fun n => if n = ['g', '.', 's', '0', '1'] then
        some [65, 68, 76, 58, 0] else none)
      (fun _ => none) ['g'] 1 = SaveStateDescriptor.empty := by
  decide

/-- Claim C5 as amended: a truncated file or mid-read end-of-stream
yields a silently absent result from querySaveMetaInfos (the empty
descriptor); in listSaves, however, the end of stream is not checked
after the name read, so every enumerated file that passes the magic and
version checks contributes a descriptor (slot from the filename, missing
name bytes read as zeros) even when the name field cannot be fully
read. -/
theorem C5_amended_truncation_behaviour :
    (∀ (fs : SaveFS) (dec : MemStream → Option Unit) (target : List Char)
       (slot : Nat) (data : List Nat),
       fs (saveFileName target slot) = some data →
       data.length < SAVEGAME_NAME_LEN + 15 →
       querySaveMetaInfos fs dec target slot = SaveStateDescriptor.empty) ∧
    (∀ (fs : SaveFS) (files : List (List Char)) (f : List Char)
       (data : List Nat),
       f ∈ files → fs f = some data → magicValue data = ADL_TAG →
       versionValue data = SAVEGAME_VERSION →
       ∃ d ∈ (listSaves fs files).1, d.saveSlot = atoi (lastTwo f)) := by
  constructor
  · exact fun fs dec t s data hfs hl =>
      query_empty_of_short fs dec t s data hfs hl
  · intro fs files f data hf hfs hm hv
    have hstep := listSavesStep_accepts fs f data hfs hm hv
    refine ⟨{ saveSlot := atoi (lastTwo f),
              description := cString (readBytes
                (readByte (readUint32BE ⟨data, 0, false⟩).2).2
                (SAVEGAME_NAME_LEN - 1)).1,
              saveDate := none, saveTime := none, playTime := none,
              thumbnail := none }, ?_, rfl⟩
    apply mem_sortBySlot.mpr
    apply List.mem_filterMap.mpr
    refine ⟨listSavesStep fs f, List.mem_map_of_mem _ hf, ?_⟩
    rw [hstep]
    rfl

/-- Witness for the amended C5: the concrete truncated file of the
counterexample yields the empty descriptor from querySaveMetaInfos yet
still contributes a slot-1 descriptor to listSaves. -/
theorem C5_witness :
    querySaveMetaInfos (fun _ => some [65, 68, 76, 58, 0]) (fun _ => none)
      ['g'] 1 = SaveStateDescriptor.empty ∧
    ∃ d ∈ (listSaves (fun _ => some [65, 68, 76, 58, 0])
        [['g', '.', 's', '0', '1']]).1,
      d.saveSlot = atoi (lastTwo ['g', '.', 's', '0', '1']) :=
  ⟨C5_amended_truncation_behaviour.1 (fun _ => some [65, 68, 76, 58, 0])
      (fun _ => none) ['g'] 1 [65, 68, 76, 58, 0] rfl (by decide),
   C5_amended_truncation_behaviour.2 (fun _ => some [65, 68, 76, 58, 0])
      [['g', '.', 's', '0', '1']] ['g', '.', 's', '0', '1']
      [65, 68, 76, 58, 0] (by decide) rfl (by decide) (by decide)⟩

/-- Claim C8: getMaximumSaveSlot is the fixed letter-range constant,
letter O minus letter A, equal to 14; it takes no input, so it cannot
depend on any file-system or save-file state. -/
theorem C8_getMaximumSaveSlot_constant : getMaximumSaveSlot = 14 := by
  decide

/-- Claim C9: removeSaveState deletes the save file of the given target
and slot; it surfaces no error when the file does not exist (removing a
missing file leaves the store unchanged), and it is idempotent. -/
theorem C9_removeSaveState_behaviour (fs : SaveFS) (target : List Char)
    (slot : Nat) :
    (removeSaveState fs target slot) (saveFileName target slot) = none ∧
    (fs (saveFileName target slot) = none →
      removeSaveState fs target slot = fs) ∧
    removeSaveState (removeSaveState fs target slot) target slot =
      removeSaveState fs target slot := by
  refine ⟨?_, ?_, ?_⟩
  · simp [removeSaveState, removeSavefile]
  · intro h
    funext n
    by_cases hn : n = saveFileName target slot
    · subst hn
      simp [removeSaveState, removeSavefile, h]
    · simp [removeSaveState, removeSavefile, hn]
  · funext n
    by_cases hn : n = saveFileName target slot <;>
      simp [removeSaveState, removeSavefile, hn]

/-- Witness for C9: on the empty store, removal yields no file, is a
no-op, and is idempotent, at a concrete target and slot. -/
theorem C9_witness :
    (removeSaveState (fun _ => none) ['g'] 0) (saveFileName ['g'] 0) =
      none ∧
    removeSaveState (fun _ => none) ['g'] 0 = (fun _ => none) ∧
    removeSaveState (removeSaveState (fun _ => none) ['g'] 0) ['g'] 0 =
      removeSaveState (fun _ => none) ['g'] 0 :=
  ⟨(C9_removeSaveState_behaviour (fun _ => none) ['g'] 0).1,
   (C9_removeSaveState_behaviour (fun _ => none) ['g'] 0).2.1 rfl,
   (C9_removeSaveState_behaviour (fun _ => none) ['g'] 0).2.2⟩

/-- Claim C10: filename round trip: for every target and slot in 0..99,
parsing the trailing two characters of the filename produced by the
percent-s dot s percent-02d format as a decimal integer yields back
exactly that slot, so the slot derived by listSaves agrees with the slot
used to create the name. -/
theorem C10_filename_roundtrip (target : List Char) (slot : Nat)
    (h : slot < 100) :
    atoi (lastTwo (saveFileName target slot)) = (slot : Int) := by
  have h2 : saveFileName target slot =
      (target ++ ['.', 's']) ++ format02 slot := by
    rw [List.append_assoc]
    rfl
  rw [h2, lastTwo_append _ _ (format02_length slot h), atoi_format02 slot h]

/-- Witness for C10: the round trip at the concrete target mygame and
slot 7. -/
theorem C10_witness :
    atoi (lastTwo (saveFileName "mygame".toList 7)) = (7 : Int) :=
  C10_filename_roundtrip "mygame".toList 7 (by decide)

end Adl
